import Mathlib

/-
  Verification of the barrier-control service (Modbus relay boards).

  The definitions below are shallow embeddings of the functions in
  src/server.js (multi-board variant), src/src/index.ts and
  src/src/modbus-client.ts.  Buffers are modelled as `List Nat` with the
  side condition that genuine bytes are `< 256`; JavaScript `undefined`
  reads out of bounds are modelled with `List.getD _ 0` (matching the
  `undefined & x → 0` coercion in bitwise contexts).
-/

namespace BarrierControl

/-! ## FrameCodec: CRC-16 (src/server.js crc16/appendCRC/verifyCRC) -/

/-- One inner-loop iteration of `crc16`:
`crc = (crc & 1) ? (crc >> 1) ^ 0xA001 : crc >> 1`. -/
def crcRound (crc : Nat) : Nat :=
  if crc % 2 = 1 then (crc / 2) ^^^ 0xA001 else crc / 2

/-- One outer-loop iteration of `crc16`: `crc ^= buffer[i]` followed by the
eight shift rounds. -/
def crcByte (crc b : Nat) : Nat :=
  crcRound^[8] (crc ^^^ b)

/-- `crc16(buffer)` from src/server.js: Modbus CRC-16, polynomial 0xA001
(reflected), initial value 0xFFFF, LSB-first. -/
def crc16 (buffer : List Nat) : Nat :=
  buffer.foldl crcByte 0xFFFF

/-- `appendCRC(buffer)`: the buffer followed by the CRC, little-endian
(`writeUInt16LE`). -/
def appendCRC (buffer : List Nat) : List Nat :=
  buffer ++ [crc16 buffer % 256, crc16 buffer / 256 % 256]

/-- `buffer.readUInt16LE(off)`. -/
def readUInt16LE (l : List Nat) (off : Nat) : Nat :=
  l.getD off 0 + 256 * l.getD (off + 1) 0

/-- `verifyCRC(buffer)`: false when shorter than 4 bytes, otherwise compares
the CRC of all but the last two bytes with the little-endian trailer. -/
def verifyCRC (buffer : List Nat) : Bool :=
  if buffer.length < 4 then false
  else crc16 (buffer.take (buffer.length - 2)) == readUInt16LE buffer (buffer.length - 2)

/-- Flip the bit mask `mask` into byte `i` of the buffer (used to state the
single-bit-flip detection property). -/
def flipAt (l : List Nat) (i mask : Nat) : List Nat :=
  l.set i (l.getD i 0 ^^^ mask)

/-! ## FrameCodec: framing (src/server.js buildTCPFrame/buildRTUFrame/
parseTCPResponse/parseRTUResponse) -/

/-- `writeUInt16BE` of a (masked) 16-bit value as two bytes. -/
def writeUInt16BE (v : Nat) : List Nat :=
  [v % 65536 / 256, v % 256]

/-- `buildTCPFrame`: 7-byte MBAP header (transaction id BE, protocol id 0,
length = pdu.length + 1 BE, unit id) followed by function code and data. -/
def buildTCPFrame (tid unitId fc : Nat) (data : List Nat) : List Nat :=
  writeUInt16BE tid ++ writeUInt16BE 0 ++ writeUInt16BE (data.length + 2) ++
    [unitId % 256] ++ fc :: data

/-- `buildRTUFrame`: unit id, function code, data, CRC-16 little-endian. -/
def buildRTUFrame (unitId fc : Nat) (data : List Nat) : List Nat :=
  appendCRC (unitId :: fc :: data)

/-- Outcome of a response parse.  `incomplete` models the `return null`
paths (keep buffering), `exception` and `crcMismatch` model the two `throw`
sites, `ok` the returned PDU. -/
inductive ParseResult where
  | incomplete : ParseResult
  | exception (fc code : Nat) : ParseResult
  | crcMismatch : ParseResult
  | ok (pdu : List Nat) : ParseResult
deriving DecidableEq, Repr

/-- `parseTCPResponse(response)` from src/server.js. -/
def parseTCPResponse (response : List Nat) : ParseResult :=
  if response.length < 9 then .incomplete
  else
    let fc := response.getD 7 0
    if (fc &&& 0x80) ≠ 0 then .exception (fc &&& 0x7F) (response.getD 8 0)
    else .ok (response.drop 7)

/-- The tail of `parseRTUResponse` once the expected total frame length is
known: wait for enough bytes, then validate the CRC over the full frame and
strip unit id and CRC. -/
def parseRTUTail (response : List Nat) (expectedLen : Nat) : ParseResult :=
  if response.length < expectedLen then .incomplete
  else
    let fullFrame := response.take expectedLen
    if verifyCRC fullFrame = false then .crcMismatch
    else .ok ((fullFrame.drop 1).take (expectedLen - 3))

/-- `parseRTUResponse(response)` from src/server.js: length-driven
reassembly with CRC validation once the expected frame length is present. -/
def parseRTUResponse (response : List Nat) : ParseResult :=
  if response.length < 5 then .incomplete
  else
    let fc := response.getD 1 0
    if (fc &&& 0x80) ≠ 0 then
      if 5 ≤ response.length ∧ verifyCRC (response.take 5) = true then
        .exception (fc &&& 0x7F) (response.getD 2 0)
      else .incomplete
    else
      if fc = 0x01 ∨ fc = 0x02 then
        if response.length < 4 then .incomplete
        else parseRTUTail response (3 + response.getD 2 0 + 2)
      else if fc = 0x05 ∨ fc = 0x06 then parseRTUTail response 8
      else parseRTUTail response response.length

/-- The coil-unpacking loop of `readCoils` (src/server.js): coil `i` is bit
`i % 8` of PDU byte `2 + i / 8`, LSB-first; an absent byte reads as 0
(JavaScript `undefined` coerces to 0 under `&`). -/
def unpackCoils (pdu : List Nat) (qty : Nat) : List Bool :=
  (List.range qty).map fun i => (pdu.getD (2 + i / 8) 0 &&& (1 <<< (i % 8))) != 0

/-- The shape of a well-formed Read Coils response payload: a byte count
followed by exactly that many data bytes. -/
def ReadCoilsShape (fc : Nat) (data : List Nat) : Prop :=
  fc = 1 ∧ data.length = data.headD 0 + 1

/-- The shape of a well-formed Write Single Coil echo payload: address and
value, two bytes each. -/
def WriteCoilShape (fc : Nat) (data : List Nat) : Prop :=
  fc = 5 ∧ data.length = 4

instance (fc : Nat) (data : List Nat) : Decidable (ReadCoilsShape fc data) := by
  unfold ReadCoilsShape; infer_instance

instance (fc : Nat) (data : List Nat) : Decidable (WriteCoilShape fc data) := by
  unfold WriteCoilShape; infer_instance

/-! ## Board and barrier registry (src/server.js BOARDS / BARRIERS) -/

/-- A configured board: key and channel count (host/port/unit id are not
needed by the modelled behaviour). -/
structure BoardCfg where
  key : String
  channels : Nat
deriving DecidableEq, Repr

/-- The static board registry of src/server.js. -/
def BOARDS : List BoardCfg :=
  [⟨"board1", 6⟩, ⟨"board2", 3⟩]

/-- A configured barrier: owning board and the three coil addresses. -/
structure BarrierCfg where
  id : Nat
  board : String
  liftCoil : Nat
  closeCoil : Nat
  stopCoil : Nat
deriving DecidableEq, Repr

/-- The static barrier registry of src/server.js. -/
def BARRIERS : List BarrierCfg :=
  [⟨1, "board1", 0, 1, 2⟩, ⟨2, "board1", 3, 4, 5⟩, ⟨3, "board2", 0, 1, 2⟩]

/-- `BARRIERS[barrierId]` lookup. -/
def findBarrier (id : Nat) : Option BarrierCfg :=
  BARRIERS.find? (fun b => b.id == id)

/-! ## Write trace / failure-oracle model

A coil write either succeeds or throws; which `(board, addr)` writes fail
is an oracle parameter.  Every attempted write is recorded in a trace. -/

/-- One attempted `writeCoil(board, addr, value)`; `ok = false` means the
exchange raised. -/
structure WriteEv where
  board : String
  addr : Nat
  value : Bool
  ok : Bool
deriving DecidableEq, Repr

/-- A pending close auto-release timer (a `closeTimers[barrierId]` entry). -/
structure TimerEv where
  barrierId : Nat
  board : String
  closeAddr : Nat
deriving DecidableEq, Repr

/-- Failure oracle: the set of `(board, addr)` coil writes that raise. -/
abbrev FailSet := List (String × Nat)

/-- Whether a write to `(bk, addr)` fails under the oracle. -/
def writeFails (fail : FailSet) (bk : String) (addr : Nat) : Bool :=
  fail.contains (bk, addr)

/-! ## emergencyOff (src/server.js lines 751-769)

For each configured board (in registry order): skip it when unreachable;
otherwise take the command lock and write channels `0..channels-1` to
false in order, awaiting each write.  There is no per-channel catch, so a
raising write propagates out of `emergencyOff` (the `finally` only clears
the per-board lock): later channels and boards are not written, the timer
sweep is not reached and no audit event is emitted.  Only when every write
succeeded are all close timers cancelled and a single audit event
emitted. -/

/-- Sweep the given channels of one board; stops at the first failing
write, mirroring the un-caught `await writeCoil` loop. -/
def sweepChannels (fail : FailSet) (bk : String) : List Nat → List WriteEv × Bool
  | [] => ([], true)
  | i :: rest =>
    if writeFails fail bk i then ([⟨bk, i, false, false⟩], false)
    else
      let (ws, ok) := sweepChannels fail bk rest
      (⟨bk, i, false, true⟩ :: ws, ok)

/-- The board loop of `emergencyOff`: unreachable boards are skipped, and a
failing write aborts the remaining boards (exception propagation). -/
def emergencyOffBoards (fail : FailSet) (reach : List String) :
    List BoardCfg → List WriteEv × Bool
  | [] => ([], true)
  | b :: rest =>
    if !reach.contains b.key then emergencyOffBoards fail reach rest
    else
      let (ws, ok) := sweepChannels fail b.key (List.range b.channels)
      if !ok then (ws, false)
      else
        let (ws2, ok2) := emergencyOffBoards fail reach rest
        (ws ++ ws2, ok2)

/-- Result of an `emergencyOff` call: attempted writes, surviving timers,
number of audit events emitted, and whether the call raised. -/
structure SweepResult where
  writes : List WriteEv
  timers : List TimerEv
  auditCount : Nat
  errored : Bool
deriving DecidableEq, Repr

/-- `emergencyOff(source)` of src/server.js over the static `BOARDS`
registry, parametrised by reachability and the write-failure oracle. -/
def emergencyOff (fail : FailSet) (reach : List String)
    (timers : List TimerEv) : SweepResult :=
  let (ws, ok) := emergencyOffBoards fail reach BOARDS
  if ok then ⟨ws, [], 1, false⟩ else ⟨ws, timers, 0, true⟩

/-- The write trace `emergencyOff` produces when no write fails: every
channel of every reachable board, in registry order, written false. -/
def fullSweepWrites (reach : List String) (boards : List BoardCfg) : List WriteEv :=
  (boards.filter (fun b => reach.contains b.key)).flatMap
    (fun b => (List.range b.channels).map (fun i => ⟨b.key, i, false, true⟩))

/-! ## latchBarrierAction (src/server.js lines 713-749)

State touched by an action: the pending close timers, the write trace and
the audit events; plus the runtime flags of the barrier's board.  The
`try/finally` guarantees the command lock is cleared on every exit path;
the audit event is emitted after the `finally`, only when nothing raised.
Nothing in this function touches `modeDetected`. -/

/-- Per-board runtime flags (the `boardState[key]` record). -/
structure BoardRuntime where
  reachable : Bool
  modeDetected : Bool
  useRTU : Bool
  commandLock : Bool
deriving DecidableEq, Repr

/-- Mutable state shared by barrier actions: pending timers, the write
trace, and emitted audit events `(action, source)`. -/
structure ActionState where
  timers : List TimerEv
  writes : List WriteEv
  events : List (String × String)
deriving DecidableEq, Repr

/-- The three actions `latchBarrierAction` recognises. -/
inductive BarrierAction where
  | lift | close | stop
deriving DecidableEq, Repr

/-- Result of `latchBarrierAction`: final board runtime, final shared
state, and the raised error if any. -/
structure ActionResult where
  rt : BoardRuntime
  st : ActionState
  error : Option String
deriving DecidableEq, Repr

/-- One traced `writeCoil` attempt; the boolean reports success. -/
def writeCoilT (fail : FailSet) (bk : String) (addr : Nat) (v : Bool)
    (st : ActionState) : ActionState × Bool :=
  if writeFails fail bk addr then
    ({st with writes := st.writes ++ [⟨bk, addr, v, false⟩]}, false)
  else
    ({st with writes := st.writes ++ [⟨bk, addr, v, true⟩]}, true)

/-- `clearTimeout(closeTimers[barrierId]); closeTimers[barrierId] = null`. -/
def cancelCloseTimer (bid : Nat) (st : ActionState) : ActionState :=
  {st with timers := st.timers.filter (fun t => t.barrierId != bid)}

/-- `latchBarrierAction(barrierId, action)` from src/server.js.  Rejections
(unknown barrier, board unreachable) happen before any write; each branch
first cancels the pending close timer, then performs its coil writes; the
`finally` clears the lock on success and failure alike. -/
def latchBarrierAction (fail : FailSet) (bid : Nat) (act : BarrierAction)
    (rt : BoardRuntime) (st : ActionState) : ActionResult :=
  match findBarrier bid with
  | none => ⟨rt, st, some "Unknown barrier"⟩
  | some b =>
    if !rt.reachable then ⟨rt, st, some "board not connected"⟩
    else
      let rt2 := {rt with commandLock := true}
      let rtDone := {rt2 with commandLock := false}
      match act with
      | .lift =>
        let st1 := cancelCloseTimer bid st
        let (st2, ok1) := writeCoilT fail b.board b.closeCoil false st1
        if !ok1 then ⟨rtDone, st2, some "write failed"⟩
        else
          let (st3, ok2) := writeCoilT fail b.board b.liftCoil true st2
          if !ok2 then ⟨rtDone, st3, some "write failed"⟩
          else ⟨rtDone, {st3 with events := st3.events ++ [("barrier_lift", "ui")]}, none⟩
      | .close =>
        let st1 := cancelCloseTimer bid st
        let (st2, ok1) := writeCoilT fail b.board b.liftCoil false st1
        if !ok1 then ⟨rtDone, st2, some "write failed"⟩
        else
          let (st3, ok2) := writeCoilT fail b.board b.closeCoil true st2
          if !ok2 then ⟨rtDone, st3, some "write failed"⟩
          else
            let st4 := {st3 with timers := st3.timers ++ [(⟨bid, b.board, b.closeCoil⟩ : TimerEv)]}
            ⟨rtDone, {st4 with events := st4.events ++ [("barrier_close", "ui")]}, none⟩
      | .stop =>
        let st1 := cancelCloseTimer bid st
        let (st2, ok1) := writeCoilT fail b.board b.liftCoil false st1
        if !ok1 then ⟨rtDone, st2, some "write failed"⟩
        else
          let (st3, ok2) := writeCoilT fail b.board b.closeCoil false st2
          if !ok2 then ⟨rtDone, st3, some "write failed"⟩
          else
            let (st4, ok3) := writeCoilT fail b.board b.stopCoil true st3
            if !ok3 then ⟨rtDone, st4, some "write failed"⟩
            else ⟨rtDone, {st4 with events := st4.events ++ [("barrier_stop", "ui")]}, none⟩

/-- The `setTimeout` callback of the close auto-release reaching its firing
time: a cancelled (absent) timer has no effect at all; a pending one writes
close=false, emits a system-sourced audit event on success, and clears its
slot. -/
def fireCloseTimer (fail : FailSet) (bid : Nat) (st : ActionState) : ActionState :=
  match st.timers.find? (fun t => t.barrierId == bid) with
  | none => st
  | some t =>
    let (st1, ok) := writeCoilT fail t.board t.closeAddr false st
    let st2 :=
      if ok then {st1 with events := st1.events ++ [("close_auto_release", "system")]}
      else st1
    {st2 with timers := st2.timers.filter (fun x => x.barrierId != bid)}

/-- At most one pending close timer per barrier. -/
def timerInv (st : ActionState) : Prop :=
  ∀ bid : Nat, (st.timers.filter (fun t => t.barrierId == bid)).length ≤ 1

/-- The last successful write to a coil in the trace, i.e. the resulting
physical coil state. -/
def lastWrite (ws : List WriteEv) (bk : String) (addr : Nat) : Option Bool :=
  ((ws.filter (fun w => w.board == bk && w.addr == addr && w.ok)).getLast?).map
    (fun w => w.value)


/-! ## autoDetectBoard / heartbeatBoard (src/server.js lines 620-667)

The probe outcome per dialect is an oracle (`pTCP`, `pRTU`): whether the
`modbusRequest(boardKey, 0x01, testData)` framed in that dialect succeeds.
Each issued probe is recorded as `(useRTU, functionCode, data)`. -/

/-- The probe payload of `autoDetectBoard`: start address 0 and quantity =
channel count, both big-endian (`writeUInt16BE`). -/
def probeData (channels : Nat) : List Nat :=
  writeUInt16BE 0 ++ writeUInt16BE channels

/-- One probe request: the dialect flag under which it was framed, the
function code, and its payload. -/
structure ProbeEv where
  useRTU : Bool
  fc : Nat
  data : List Nat
deriving DecidableEq, Repr

/-- `autoDetectBoard(boardKey)`: try the read framed as Modbus/TCP first;
on failure retry framed as RTU; returns `(runtime, detected, probes)`.
Note the `useRTU` flag is left at the value of the last attempt. -/
def autoDetectBoard (channels : Nat) (pTCP pRTU : Bool) (rt : BoardRuntime) :
    BoardRuntime × Bool × List ProbeEv :=
  let rt1 := {rt with useRTU := false}
  if pTCP then (rt1, true, [⟨false, 1, probeData channels⟩])
  else
    let rt2 := {rt1 with useRTU := true}
    if pRTU then
      (rt2, true, [⟨false, 1, probeData channels⟩, ⟨true, 1, probeData channels⟩])
    else
      (rt2, false, [⟨false, 1, probeData channels⟩, ⟨true, 1, probeData channels⟩])

/-- `heartbeatBoard(boardKey)`: skip when the command lock is held; run
detection first when the dialect is undetected and end the cycle if it
fails; otherwise read all coils, caching them and marking reachable on
success, or marking unreachable and invalidating the detected mode on
failure.  `readResult = none` models a raising `readCoils`. -/
def heartbeatBoard (channels : Nat) (pTCP pRTU : Bool)
    (readResult : Option (List Bool)) (rt : BoardRuntime) (coils : List Bool) :
    BoardRuntime × List Bool × List ProbeEv :=
  if rt.commandLock then (rt, coils, [])
  else
    let det :=
      if rt.modeDetected then (rt, true, ([] : List ProbeEv))
      else
        let (rtd, ok, probes) := autoDetectBoard channels pTCP pRTU rt
        ({rtd with modeDetected := ok}, ok, probes)
    match det with
    | (rt1, detected, probes) =>
      if !detected then (rt1, coils, probes)
      else
        match readResult with
        | some cs => ({rt1 with reachable := true}, cs, probes)
        | none => ({rt1 with reachable := false, modeDetected := false}, coils, probes)


/-! ## Command-lock interleaving model (src/server.js commandLock)

`commandLock` is a per-board boolean.  `latchBarrierAction` sets it, does
its awaited writes, and clears it in a `finally`; it never checks it.
`heartbeatBoard` returns early when it is set.  Each `await` is a
suspension point, so steps of concurrent calls interleave under the event
loop.  A thread is a list of atomic steps; a schedule picks which thread
runs its next step. -/

/-- Atomic steps between suspension points. -/
inductive GateStep where
  | setLock : GateStep
  | clearLock : GateStep
  | writeC (tag addr : Nat) (v : Bool) : GateStep
  | readC : GateStep
  | skipIfLocked : GateStep
deriving DecidableEq, Repr

/-- Observable events: coil writes (tagged by issuing thread) and coil
reads. -/
inductive GateEv where
  | writeC (tag addr : Nat) (v : Bool) : GateEv
  | readC : GateEv
deriving DecidableEq, Repr

/-- Lock flag plus event trace. -/
structure GateState where
  lock : Bool
  trace : List GateEv
deriving DecidableEq, Repr

/-- Run one step of a thread; `skipIfLocked` drops the rest of the thread
when the lock is held (the heartbeat early return). -/
def runStep (s : GateState) (st : GateStep) (rest : List GateStep) :
    GateState × List GateStep :=
  match st with
  | .setLock => ({s with lock := true}, rest)
  | .clearLock => ({s with lock := false}, rest)
  | .writeC t a v => ({s with trace := s.trace ++ [.writeC t a v]}, rest)
  | .readC => ({s with trace := s.trace ++ [.readC]}, rest)
  | .skipIfLocked => if s.lock then (s, []) else (s, rest)

/-- Let thread `i` take its next step (no-op when it has finished). -/
def schedStep (threads : List (List GateStep)) (i : Nat) (s : GateState) :
    List (List GateStep) × GateState :=
  match threads.getD i [] with
  | [] => (threads, s)
  | st :: rest =>
    let (s2, rest2) := runStep s st rest
    (threads.set i rest2, s2)

/-- Run a schedule (list of thread indices) to completion. -/
def runSched : List Nat → List (List GateStep) → GateState → GateState
  | [], _, s => s
  | i :: is, threads, s =>
    let (t2, s2) := schedStep threads i s
    runSched is t2 s2

/-- The step sequence of `latchBarrierAction(_, lift)` on one board: take
the lock, await two coil writes, release the lock. -/
def liftThread (tag liftCoil closeCoil : Nat) : List GateStep :=
  [.setLock, .writeC tag closeCoil false, .writeC tag liftCoil true, .clearLock]

/-- The step sequence of `heartbeatBoard` for the same board: check the
lock (early return when held), then read the coils. -/
def heartbeatThread : List GateStep :=
  [.skipIfLocked, .readC]

/-- The write tags of a trace, in order: used to detect interleaving of two
actuations. -/
def writeTags (tr : List GateEv) : List Nat :=
  tr.filterMap (fun e => match e with | .writeC t _ _ => some t | .readC => none)

/-! ## index.ts barrier routes (src/src/index.ts lines 265-340)

Lock handling of the HTTP layer: `lift`/`close`/`stop` routes reject with
HTTP 423 when the barrier is locked and the action is not `stop`, before
any Modbus traffic; the `latch-open`/`latch-close`/`unlatch` routes have no
lock check at all.  `activateCoil` clears all three coils and then sets the
target; `releaseLatch` clears all three. -/

/-- A barrier of the TypeScript config (coil indices on its relay board). -/
structure TsBarrierCfg where
  id : String
  numericId : Nat
  liftCoil : Nat
  stopCoil : Nat
  closeCoil : Nat
deriving DecidableEq, Repr

/-- The static TypeScript registry (src/src/config.ts). -/
def TS_BARRIERS : List TsBarrierCfg :=
  [⟨"krs-entry", 1, 0, 1, 2⟩, ⟨"krs-exit", 2, 3, 4, 5⟩, ⟨"krs-combo", 3, 4, 5, 3⟩]

/-- The actions the index.ts routes expose. -/
inductive TsAction where
  | lift | close | stop | latchOpen | latchClose | unlatch | lock | unlock
deriving DecidableEq, Repr

/-- Route outcome: HTTP status, the coil writes issued (in order), and the
resulting locked flag. -/
structure TsResult where
  status : Nat
  coilWrites : List (Nat × Bool)
  locked : Bool
deriving DecidableEq, Repr

/-- The writes of `activateCoil(barrier, action)`: clear lift, stop and
close via `writeMultipleCoils`, then set the target coil. -/
def activateCoilWrites (b : TsBarrierCfg) (target : Nat) : List (Nat × Bool) :=
  [(b.liftCoil, false), (b.stopCoil, false), (b.closeCoil, false), (target, true)]

/-- The per-barrier route handlers of index.ts, assuming the Modbus writes
succeed.  Mirrors the code path for each action, in particular which
routes consult the `locked` flag. -/
def tsHandle (b : TsBarrierCfg) (locked : Bool) (act : TsAction) : TsResult :=
  match act with
  | .lift =>
    if locked then ⟨423, [], locked⟩
    else ⟨200, activateCoilWrites b b.liftCoil, locked⟩
  | .close =>
    if locked then ⟨423, [], locked⟩
    else ⟨200, activateCoilWrites b b.closeCoil, locked⟩
  | .stop => ⟨200, activateCoilWrites b b.stopCoil, locked⟩
  | .latchOpen => ⟨200, activateCoilWrites b b.liftCoil, true⟩
  | .latchClose => ⟨200, activateCoilWrites b b.closeCoil, true⟩
  | .unlatch =>
    ⟨200, [(b.liftCoil, false), (b.stopCoil, false), (b.closeCoil, false)], false⟩
  | .lock => ⟨200, [], true⟩
  | .unlock => ⟨200, [], false⟩

/-! ## Theorems -/

/-! ## CRC-16 facts -/

theorem xor_mod_two (x y : Nat) : (x ^^^ y) % 2 = x % 2 ^^^ y % 2 := by
  rw [Nat.xor_mod_two_eq]
  rcases Nat.even_or_odd x with hx | hx <;> rcases Nat.even_or_odd y with hy | hy <;>
      simp [Nat.even_iff, Nat.odd_iff] at hx hy <;> rw [hx, hy] <;> simp <;> omega

theorem xor_eq_self (x y : Nat) (h : x ^^^ y = x) : y = 0 := by
  have h2 := congrArg (fun z => x ^^^ z) h.symm
  simpa [← Nat.xor_assoc, Nat.xor_self] using h2.symm

theorem xor_left_comm (a b c : Nat) : a ^^^ (b ^^^ c) = b ^^^ (a ^^^ c) := by
  rw [← Nat.xor_assoc, Nat.xor_comm a b, Nat.xor_assoc]

theorem crcRound_lt {x : Nat} (hx : x < 65536) : crcRound x < 65536 := by
  unfold crcRound
  split
  · have h1 : x / 2 < 2 ^ 16 := by omega
    have h2 : (0xA001 : Nat) < 2 ^ 16 := by norm_num
    simpa using Nat.xor_lt_two_pow h1 h2
  · omega

theorem crcRound_pos {x : Nat} (hx0 : 0 < x) (hx : x < 65536) : 0 < crcRound x := by
  unfold crcRound
  split
  · rcases Nat.eq_zero_or_pos ((x / 2) ^^^ 0xA001) with h | h
    · exfalso
      have := Nat.xor_eq_zero.mp h
      omega
    · exact h
  · rename_i h
    rcases Nat.mod_two_eq_zero_or_one x with h2 | h2
    · omega
    · omega

theorem crcRound_xor (x y : Nat) : crcRound (x ^^^ y) = crcRound x ^^^ crcRound y := by
  unfold crcRound
  rw [Nat.xor_div_two]
  have hp := xor_mod_two x y
  rcases Nat.mod_two_eq_zero_or_one x with hx | hx <;>
    rcases Nat.mod_two_eq_zero_or_one y with hy | hy <;>
      rw [hx, hy] at hp <;> simp [hx, hy, hp] <;>
        simp [Nat.xor_assoc, Nat.xor_comm, xor_left_comm]

theorem crcRound_iterate_lt {x : Nat} (hx : x < 65536) (n : Nat) :
    crcRound^[n] x < 65536 := by
  induction n generalizing x with
  | zero => simpa using hx
  | succ n ih =>
    rw [Function.iterate_succ_apply]
    exact ih (crcRound_lt hx)

theorem crcRound_iterate_pos {x : Nat} (hx0 : 0 < x) (hx : x < 65536) (n : Nat) :
    0 < crcRound^[n] x := by
  induction n generalizing x with
  | zero => simpa using hx0
  | succ n ih =>
    rw [Function.iterate_succ_apply]
    exact ih (crcRound_pos hx0 hx) (crcRound_lt hx)

theorem crcRound_iterate_xor (n x y : Nat) :
    crcRound^[n] (x ^^^ y) = crcRound^[n] x ^^^ crcRound^[n] y := by
  induction n generalizing x y with
  | zero => simp
  | succ n ih =>
    rw [Function.iterate_succ_apply, Function.iterate_succ_apply,
      Function.iterate_succ_apply, crcRound_xor]
    exact ih _ _

theorem crcByte_xor_right (c b e : Nat) :
    crcByte c (b ^^^ e) = crcByte c b ^^^ crcRound^[8] e := by
  unfold crcByte
  rw [← Nat.xor_assoc, crcRound_iterate_xor]

theorem crcByte_xor_left (c d b : Nat) :
    crcByte (c ^^^ d) b = crcByte c b ^^^ crcRound^[8] d := by
  unfold crcByte
  have h : (c ^^^ d) ^^^ b = (c ^^^ b) ^^^ d := by
    rw [Nat.xor_assoc, Nat.xor_comm d b, ← Nat.xor_assoc]
  rw [h, crcRound_iterate_xor]

theorem foldl_crcByte_xor (l : List Nat) (c d : Nat) :
    l.foldl crcByte (c ^^^ d) = l.foldl crcByte c ^^^ crcRound^[8 * l.length] d := by
  induction l generalizing c d with
  | nil => simp
  | cons b l ih =>
    simp only [List.foldl_cons, List.length_cons]
    rw [crcByte_xor_left, ih]
    rw [← Function.iterate_add_apply]
    congr 1

theorem crc16_append_flip (l1 l2 : List Nat) (b e : Nat) :
    crc16 (l1 ++ (b ^^^ e) :: l2) =
      crc16 (l1 ++ b :: l2) ^^^ crcRound^[8 * (l2.length + 1)] e := by
  unfold crc16
  rw [List.foldl_append, List.foldl_append, List.foldl_cons, List.foldl_cons,
    crcByte_xor_right, foldl_crcByte_xor]
  rw [← Function.iterate_add_apply]
  congr 1

theorem foldl_crcByte_lt (l : List Nat) (c : Nat) (hc : c < 65536)
    (hl : ∀ b ∈ l, b < 65536) : l.foldl crcByte c < 65536 := by
  induction l generalizing c with
  | nil => simpa using hc
  | cons b l ih =>
    simp only [List.foldl_cons]
    refine ih (crcByte c b) ?_ (fun x hx => hl x (List.mem_cons_of_mem _ hx))
    unfold crcByte
    have hb : b < 65536 := hl b (List.mem_cons_self _ _)
    have hx : c ^^^ b < 65536 := by
      have := Nat.xor_lt_two_pow (n := 16) (by simpa using hc) (by simpa using hb)
      simpa using this
    exact crcRound_iterate_lt hx 8

theorem crc16_lt (l : List Nat) (hl : ∀ b ∈ l, b < 65536) : crc16 l < 65536 :=
  foldl_crcByte_lt l 0xFFFF (by norm_num) hl

theorem crc16_set_ne (l : List Nat) (i e : Nat) (hi : i < l.length)
    (he0 : 0 < e) (he : e < 65536) :
    crc16 (l.set i (l.getD i 0 ^^^ e)) ≠ crc16 l := by
  have hdec : l = l.take i ++ l.getD i 0 :: l.drop (i + 1) := by
    conv_lhs => rw [← List.take_append_drop i l]
    congr 1
    rw [List.getD_eq_getElem l 0 hi]
    exact (List.getElem_cons_drop l i hi).symm
  rw [List.set_eq_take_cons_drop _ hi]
  conv_rhs => rw [hdec]
  rw [crc16_append_flip]
  intro hcontra
  have hD : crcRound^[8 * ((l.drop (i + 1)).length + 1)] e = 0 :=
    xor_eq_self _ _ hcontra
  have := crcRound_iterate_pos he0 he (8 * ((l.drop (i + 1)).length + 1))
  omega

theorem verifyCRC_append_pair (l : List Nat) (a b : Nat) (hlen : 2 ≤ l.length)
    (hab : crc16 l = a + 256 * b) :
    verifyCRC (l ++ [a, b]) = true := by
  unfold verifyCRC
  have hL : (l ++ [a, b]).length = l.length + 2 := by simp
  rw [hL, if_neg (by omega)]
  have hn : l.length + 2 - 2 = l.length := by omega
  rw [hn]
  rw [List.take_left l [a, b]]
  unfold readUInt16LE
  rw [List.getD_append_right l [a, b] 0 _ (le_refl _),
    List.getD_append_right l [a, b] 0 _ (by omega)]
  simp [hab]

theorem verifyCRC_append_pair_false (l : List Nat) (a b : Nat) (hlen : 2 ≤ l.length)
    (hab : crc16 l ≠ a + 256 * b) :
    verifyCRC (l ++ [a, b]) = false := by
  unfold verifyCRC
  have hL : (l ++ [a, b]).length = l.length + 2 := by simp
  rw [hL, if_neg (by omega)]
  have hn : l.length + 2 - 2 = l.length := by omega
  rw [hn]
  rw [List.take_left l [a, b]]
  unfold readUInt16LE
  rw [List.getD_append_right l [a, b] 0 _ (le_refl _),
    List.getD_append_right l [a, b] 0 _ (by omega)]
  simp [hab]

theorem verifyCRC_appendCRC (l : List Nat) (hlen : 2 ≤ l.length)
    (hl : ∀ b ∈ l, b < 65536) : verifyCRC (appendCRC l) = true := by
  have hc := crc16_lt l hl
  exact verifyCRC_append_pair l _ _ hlen (by omega)

theorem verifyCRC_flipAt_appendCRC (l : List Nat) (hlen : 2 ≤ l.length)
    (hl : ∀ b ∈ l, b < 256) (i j : Nat) (hi : i < l.length + 2) (hj : j < 8) :
    verifyCRC (flipAt (appendCRC l) i (1 <<< j)) = false := by
  have hl' : ∀ b ∈ l, b < 65536 := fun b hb => lt_trans (hl b hb) (by norm_num)
  have hc := crc16_lt l hl'
  have he0 : 0 < 1 <<< j := by
    rw [Nat.one_shiftLeft]; exact pow_pos (by norm_num) j
  have he : 1 <<< j < 65536 := by
    rw [Nat.one_shiftLeft]
    calc 2 ^ j < 2 ^ 8 := Nat.pow_lt_pow_right (by norm_num) hj
    _ ≤ 65536 := by norm_num
  unfold flipAt appendCRC
  rcases lt_or_ge i l.length with hcase | hcase
  · rw [List.getD_append l _ 0 i hcase, List.set_append_left i _ hcase]
    have hlen' : 2 ≤ (l.set i (l.getD i 0 ^^^ 1 <<< j)).length := by
      simpa using hlen
    refine verifyCRC_append_pair_false _ _ _ hlen' ?_
    have hne := crc16_set_ne l i (1 <<< j) hcase he0 he
    intro hcontra
    exact hne (by omega)
  · rw [List.getD_append_right l _ 0 i hcase, List.set_append_right i _ hcase]
    have : i - l.length = 0 ∨ i - l.length = 1 := by omega
    rcases this with h0 | h0 <;> rw [h0]
    · simp only [List.getD_cons_zero, List.set_cons_zero]
      refine verifyCRC_append_pair_false _ _ _ hlen ?_
      intro hcontra
      have hx : crc16 l % 256 ^^^ 1 <<< j = crc16 l % 256 := by omega
      have := xor_eq_self _ _ hx
      omega
    · simp only [List.getD_cons_succ, List.getD_cons_zero,
        List.set_cons_succ, List.set_cons_zero]
      refine verifyCRC_append_pair_false _ _ _ hlen ?_
      intro hcontra
      have hx : crc16 l / 256 % 256 ^^^ 1 <<< j = crc16 l / 256 % 256 := by omega
      have := xor_eq_self _ _ hx
      omega

/-! ## Framing facts (round trips and partial-frame reassembly) -/

theorem getD_take (l : List Nat) (n i : Nat) (h : i < n) :
    (l.take n).getD i 0 = l.getD i 0 := by
  unfold List.getD
  rw [List.get?_take h]

theorem buildRTUFrame_eq (u fc : Nat) (data : List Nat) :
    buildRTUFrame u fc data =
      u :: fc :: (data ++ [crc16 (u :: fc :: data) % 256,
        crc16 (u :: fc :: data) / 256 % 256]) := by
  simp [buildRTUFrame, appendCRC]

theorem verifyCRC_buildRTUFrame (u fc : Nat) (data : List Nat) (hu : u < 256)
    (hfc : fc < 256) (hd : ∀ b ∈ data, b < 256) :
    verifyCRC (buildRTUFrame u fc data) = true := by
  refine verifyCRC_appendCRC _ (by simp) ?_
  intro b hb
  simp only [List.mem_cons] at hb
  rcases hb with h | h | h
  · omega
  · omega
  · exact lt_trans (hd b h) (by norm_num)

theorem parseRTUResponse_complete (u fc : Nat) (data : List Nat) (hu : u < 256)
    (hshape : ReadCoilsShape fc data ∨ WriteCoilShape fc data)
    (hd : ∀ b ∈ data, b < 256) :
    parseRTUResponse (buildRTUFrame u fc data) = .ok (fc :: data) := by
  have hcrc : verifyCRC (buildRTUFrame u fc data) = true := by
    refine verifyCRC_buildRTUFrame u fc data hu ?_ hd
    rcases hshape with ⟨h, _⟩ | ⟨h, _⟩ <;> omega
  rw [buildRTUFrame_eq] at hcrc ⊢
  rcases hshape with ⟨hfc, hlen⟩ | ⟨hfc, hlen⟩ <;> subst hfc
  · -- Read Coils response
    obtain ⟨bc, rest, rfl⟩ : ∃ bc rest, data = bc :: rest := by
      rcases data with _ | ⟨x, xs⟩
      · simp at hlen
      · exact ⟨x, xs, rfl⟩
    have hrest : rest.length = bc := by simpa using hlen
    simp only [List.cons_append] at hcrc ⊢
    simp only [parseRTUResponse, List.getD_cons_succ, List.getD_cons_zero]
    rw [if_neg (by simp only [List.length_cons, List.length_append,
      List.length_nil]; omega)]
    rw [if_neg (by decide)]
    rw [if_pos (by norm_num)]
    rw [if_neg (by simp only [List.length_cons, List.length_append,
      List.length_nil]; omega)]
    unfold parseRTUTail
    rw [if_neg (by simp only [List.length_cons, List.length_append,
      List.length_nil]; omega)]
    have htake : (u :: 1 :: bc :: (rest ++ [crc16 (u :: 1 :: bc :: rest) % 256,
        crc16 (u :: 1 :: bc :: rest) / 256 % 256])).take (3 + bc + 2) =
        u :: 1 :: bc :: (rest ++ [crc16 (u :: 1 :: bc :: rest) % 256,
          crc16 (u :: 1 :: bc :: rest) / 256 % 256]) := by
      refine List.take_of_length_le ?_
      simp only [List.length_cons, List.length_append, List.length_nil]
      omega
    simp only [htake, hcrc]
    rw [if_neg (by simp)]
    simp only [List.drop_succ_cons, List.drop_zero]
    congr 1
    rw [show 3 + bc + 2 - 3 = bc + 1 + 1 from by omega]
    simp only [List.take_succ_cons]
    congr 2
    rw [← hrest, List.take_append_of_le_length (le_refl _), List.take_length]
  · -- Write Single Coil echo
    simp only [parseRTUResponse, List.getD_cons_succ, List.getD_cons_zero]
    rw [if_neg (by simp only [List.length_cons, List.length_append,
      List.length_nil]; omega)]
    rw [if_neg (by decide)]
    rw [if_neg (by norm_num)]
    rw [if_pos (by norm_num)]
    unfold parseRTUTail
    rw [if_neg (by simp only [List.length_cons, List.length_append,
      List.length_nil]; omega)]
    have htake : (u :: 5 :: (data ++ [crc16 (u :: 5 :: data) % 256,
        crc16 (u :: 5 :: data) / 256 % 256])).take 8 =
        u :: 5 :: (data ++ [crc16 (u :: 5 :: data) % 256,
          crc16 (u :: 5 :: data) / 256 % 256]) := by
      refine List.take_of_length_le ?_
      simp only [List.length_cons, List.length_append, List.length_nil]
      omega
    simp only [htake, hcrc]
    rw [if_neg (by simp)]
    simp only [List.drop_succ_cons, List.drop_zero]
    congr 1
    rw [show (8 : Nat) - 3 = 4 + 1 from by omega]
    simp only [List.take_succ_cons]
    congr 1
    rw [← hlen, List.take_append_of_le_length (le_refl _), List.take_length]

theorem parseTCPResponse_complete (tid u fc : Nat) (data : List Nat)
    (hfc : (fc &&& 0x80) = 0) (hpos : 1 ≤ data.length) :
    parseTCPResponse (buildTCPFrame tid u fc data) = .ok (fc :: data) := by
  simp only [buildTCPFrame, writeUInt16BE, List.cons_append, List.nil_append]
  simp only [parseTCPResponse, List.getD_cons_succ, List.getD_cons_zero,
    List.length_cons]
  rw [if_neg (by omega)]
  rw [if_neg (by simp [hfc])]
  simp only [List.drop_succ_cons, List.drop_zero]

theorem parseRTUResponse_prefixIncomplete (u fc : Nat) (data : List Nat)
    (hshape : ReadCoilsShape fc data ∨ WriteCoilShape fc data)
    (k : Nat) (hk : k < (buildRTUFrame u fc data).length) :
    parseRTUResponse ((buildRTUFrame u fc data).take k) = .incomplete := by
  have hL : (buildRTUFrame u fc data).length = data.length + 4 := by
    simp [buildRTUFrame, appendCRC]
  rcases Nat.lt_or_ge k 5 with h5 | h5
  · unfold parseRTUResponse
    rw [if_pos (by simp only [List.length_take]; omega)]
  · rw [buildRTUFrame_eq]
    rcases hshape with ⟨hfc, hlen⟩ | ⟨hfc, hlen⟩ <;> subst hfc
    · -- Read Coils prefix
      obtain ⟨bc, rest, rfl⟩ : ∃ bc rest, data = bc :: rest := by
        rcases data with _ | ⟨x, xs⟩
        · simp at hlen
        · exact ⟨x, xs, rfl⟩
      have hrest : rest.length = bc := by simpa using hlen
      obtain ⟨k3, rfl⟩ : ∃ k3, k = k3 + 3 := ⟨k - 3, by omega⟩
      simp only [List.length_cons, List.length_append, List.length_nil] at hk hL
      simp only [List.cons_append, List.take_succ_cons]
      simp only [parseRTUResponse, List.getD_cons_succ, List.getD_cons_zero]
      rw [if_neg (by simp only [List.length_cons, List.length_take,
        List.length_append, List.length_nil]; omega)]
      rw [if_neg (by decide)]
      rw [if_pos (by norm_num)]
      rw [if_neg (by simp only [List.length_cons, List.length_take,
        List.length_append, List.length_nil]; omega)]
      unfold parseRTUTail
      rw [if_pos (by simp only [List.length_cons, List.length_take,
        List.length_append, List.length_nil]; omega)]
    · -- Write Single Coil prefix
      obtain ⟨k2, rfl⟩ : ∃ k2, k = k2 + 2 := ⟨k - 2, by omega⟩
      simp only [List.length_cons, List.length_append, List.length_nil] at hk hL
      simp only [List.take_succ_cons]
      simp only [parseRTUResponse, List.getD_cons_succ, List.getD_cons_zero]
      rw [if_neg (by simp only [List.length_cons, List.length_take,
        List.length_append, List.length_nil]; omega)]
      rw [if_neg (by decide)]
      rw [if_neg (by norm_num)]
      rw [if_pos (by norm_num)]
      unfold parseRTUTail
      rw [if_pos (by simp only [List.length_cons, List.length_take,
        List.length_append, List.length_nil]; omega)]

theorem sweepChannels_noFail (bk : String) (l : List Nat) :
    sweepChannels [] bk l = (l.map (fun i => ⟨bk, i, false, true⟩), true) := by
  induction l with
  | nil => rfl
  | cons i rest ih =>
    simp only [sweepChannels, writeFails, List.contains_nil, ih]
    rfl

theorem emergencyOffBoards_noFail (reach : List String) (boards : List BoardCfg) :
    emergencyOffBoards [] reach boards = (fullSweepWrites reach boards, true) := by
  induction boards with
  | nil => rfl
  | cons b rest ih =>
    simp only [emergencyOffBoards, sweepChannels_noFail, ih, fullSweepWrites]
    by_cases hb : b.key ∈ reach
    · simp [List.elem_iff.mpr hb, hb, List.filter_cons, fullSweepWrites]
    · have hb2 : reach.contains b.key = false := by
        simpa using (fun hc => hb (List.elem_iff.mp hc))
      simp [hb2, hb, List.filter_cons, fullSweepWrites]

theorem filter_timers_le (l : List TimerEv) (p q : TimerEv → Bool) :
    ((l.filter q).filter p).length ≤ (l.filter p).length := by
  have h1 : (l.filter q).Sublist l := List.filter_sublist l
  exact (h1.filter p).length_le

theorem timerInv_cancel (bid : Nat) (st : ActionState) (h : timerInv st) :
    timerInv (cancelCloseTimer bid st) := by
  intro bid2
  exact le_trans (filter_timers_le st.timers _ _) (h bid2)

theorem filter_beq_of_filter_bne (l : List TimerEv) (bid : Nat) :
    ((l.filter (fun t => t.barrierId != bid)).filter
      (fun t => t.barrierId == bid)) = [] := by
  rw [List.filter_filter]
  refine List.filter_eq_nil.mpr ?_
  intro t _
  by_cases hb : t.barrierId = bid <;> simp [hb]

theorem timerInv_cancel_append (bid : Nat) (st : ActionState) (h : timerInv st)
    (t : TimerEv) (ht : t.barrierId = bid) :
    timerInv {st with
      timers := (cancelCloseTimer bid st).timers ++ [t]} := by
  intro bid2
  simp only [cancelCloseTimer, List.filter_append]
  by_cases hb : bid2 = bid
  · subst hb
    rw [filter_beq_of_filter_bne]
    simp [ht]
  · have hnil : [t].filter (fun x => x.barrierId == bid2) = [] := by
      simp [ht, Ne.symm hb]
    rw [hnil, List.append_nil]
    exact le_trans (filter_timers_le st.timers _ _) (h bid2)

theorem writeCoilT_timers (fail : FailSet) (bk : String) (addr : Nat) (v : Bool)
    (st : ActionState) : (writeCoilT fail bk addr v st).1.timers = st.timers := by
  unfold writeCoilT
  by_cases hf : writeFails fail bk addr <;> simp [hf]

/-- `latchBarrierAction` preserves the at-most-one-timer-per-barrier
invariant: every branch cancels the pending timer first, and only `close`
arms a (single) new one. -/
theorem timerInv_latchBarrierAction (fail : FailSet) (bid : Nat)
    (act : BarrierAction) (rt : BoardRuntime) (st : ActionState)
    (h : timerInv st) :
    timerInv (latchBarrierAction fail bid act rt st).st := by
  unfold latchBarrierAction
  rcases hfb : findBarrier bid with _ | b
  · exact h
  · by_cases hr : rt.reachable
    · simp only [hr, Bool.not_true, Bool.false_eq_true, if_false]
      have hc := timerInv_cancel bid st h
      rcases act with _ | _ | _ <;> simp only []
      · -- lift
        rcases h1 : writeCoilT fail b.board b.closeCoil false (cancelCloseTimer bid st)
          with ⟨st2, ok1⟩
        have e2 : st2.timers = (cancelCloseTimer bid st).timers := by
          have := writeCoilT_timers fail b.board b.closeCoil false (cancelCloseTimer bid st)
          rw [h1] at this
          exact this
        have hc2 : timerInv st2 := by intro x; rw [e2]; exact hc x
        rcases ok1 with _ | _
        · simpa using hc2
        · rcases h2 : writeCoilT fail b.board b.liftCoil true st2 with ⟨st3, ok2⟩
          have e3 : st3.timers = st2.timers := by
            have := writeCoilT_timers fail b.board b.liftCoil true st2
            rw [h2] at this
            exact this
          have hc3 : timerInv st3 := by intro x; rw [e3]; exact hc2 x
          rcases ok2 with _ | _ <;> simpa using hc3
      · -- close
        rcases h1 : writeCoilT fail b.board b.liftCoil false (cancelCloseTimer bid st)
          with ⟨st2, ok1⟩
        have e2 : st2.timers = (cancelCloseTimer bid st).timers := by
          have := writeCoilT_timers fail b.board b.liftCoil false (cancelCloseTimer bid st)
          rw [h1] at this
          exact this
        have hc2 : timerInv st2 := by intro x; rw [e2]; exact hc x
        rcases ok1 with _ | _
        · simpa using hc2
        · rcases h2 : writeCoilT fail b.board b.closeCoil true st2 with ⟨st3, ok2⟩
          have e3 : st3.timers = st2.timers := by
            have := writeCoilT_timers fail b.board b.closeCoil true st2
            rw [h2] at this
            exact this
          have hc3 : timerInv st3 := by intro x; rw [e3]; exact hc2 x
          rcases ok2 with _ | _
          · simpa using hc3
          · simp only [Bool.not_true, Bool.false_eq_true, if_false]
            intro bid2
            simp only [List.filter_append, e3, e2]
            have hinst := timerInv_cancel_append bid st h
              ⟨bid, b.board, b.closeCoil⟩ rfl bid2
            simpa [cancelCloseTimer, List.filter_append] using hinst
      · -- stop
        rcases h1 : writeCoilT fail b.board b.liftCoil false (cancelCloseTimer bid st)
          with ⟨st2, ok1⟩
        have e2 : st2.timers = (cancelCloseTimer bid st).timers := by
          have := writeCoilT_timers fail b.board b.liftCoil false (cancelCloseTimer bid st)
          rw [h1] at this
          exact this
        have hc2 : timerInv st2 := by intro x; rw [e2]; exact hc x
        rcases ok1 with _ | _
        · simpa using hc2
        · rcases h2 : writeCoilT fail b.board b.closeCoil false st2 with ⟨st3, ok2⟩
          have e3 : st3.timers = st2.timers := by
            have := writeCoilT_timers fail b.board b.closeCoil false st2
            rw [h2] at this
            exact this
          have hc3 : timerInv st3 := by intro x; rw [e3]; exact hc2 x
          rcases ok2 with _ | _
          · simpa using hc3
          · rcases h3 : writeCoilT fail b.board b.stopCoil true st3 with ⟨st4, ok3⟩
            have e4 : st4.timers = st3.timers := by
              have := writeCoilT_timers fail b.board b.stopCoil true st3
              rw [h3] at this
              exact this
            have hc4 : timerInv st4 := by intro x; rw [e4]; exact hc3 x
            rcases ok3 with _ | _ <;> simpa using hc4
    · simp only [hr, Bool.not_false, if_true]
      exact h

/-- `fireCloseTimer` also preserves the invariant. -/
theorem timerInv_fireCloseTimer (fail : FailSet) (bid : Nat) (st : ActionState)
    (h : timerInv st) : timerInv (fireCloseTimer fail bid st) := by
  unfold fireCloseTimer
  rcases hf : st.timers.find? (fun t => t.barrierId == bid) with _ | t
  · simp only [hf]
    exact h
  · simp only [hf]
    rcases h1 : writeCoilT fail t.board t.closeAddr false st with ⟨st1, ok⟩
    have e1 : st1.timers = st.timers := by
      have := writeCoilT_timers fail t.board t.closeAddr false st
      rw [h1] at this
      exact this
    intro bid2
    rcases ok with _ | _ <;> simp only [Bool.false_eq_true, if_false, if_true, e1] <;>
      exact le_trans (filter_timers_le st.timers _ _) (h bid2)

/-- `latchBarrierAction` either leaves the board runtime untouched (the
synchronous rejections) or returns it with the command lock cleared by the
`finally`; in particular it never touches `modeDetected`, `reachable` or
`useRTU`, and the lock is released on every exit path, failures included. -/
theorem latchBarrierAction_rt (fail : FailSet) (bid : Nat) (act : BarrierAction)
    (rt : BoardRuntime) (st : ActionState) :
    (latchBarrierAction fail bid act rt st).rt = rt ∨
    (latchBarrierAction fail bid act rt st).rt = {rt with commandLock := false} := by
  unfold latchBarrierAction
  rcases findBarrier bid with _ | b
  · exact Or.inl rfl
  · by_cases hr : rt.reachable
    · simp only [hr, Bool.not_true, Bool.false_eq_true, if_false]
      rcases act with _ | _ | _ <;> simp only []
      · rcases writeCoilT fail b.board b.closeCoil false (cancelCloseTimer bid st)
          with ⟨st2, _ | _⟩
        · exact Or.inr rfl
        · rcases writeCoilT fail b.board b.liftCoil true st2 with ⟨st3, _ | _⟩ <;>
            exact Or.inr rfl
      · rcases writeCoilT fail b.board b.liftCoil false (cancelCloseTimer bid st)
          with ⟨st2, _ | _⟩
        · exact Or.inr rfl
        · rcases writeCoilT fail b.board b.closeCoil true st2 with ⟨st3, _ | _⟩ <;>
            exact Or.inr rfl
      · rcases writeCoilT fail b.board b.liftCoil false (cancelCloseTimer bid st)
          with ⟨st2, _ | _⟩
        · exact Or.inr rfl
        · rcases writeCoilT fail b.board b.closeCoil false st2 with ⟨st3, _ | _⟩
          · exact Or.inr rfl
          · rcases writeCoilT fail b.board b.stopCoil true st3 with ⟨st4, _ | _⟩ <;>
              exact Or.inr rfl
    · simp only [hr, Bool.not_false, if_true]
      exact Or.inl trivial

theorem latchBarrierAction_modeDetected (fail : FailSet) (bid : Nat)
    (act : BarrierAction) (rt : BoardRuntime) (st : ActionState) :
    (latchBarrierAction fail bid act rt st).rt.modeDetected = rt.modeDetected := by
  rcases latchBarrierAction_rt fail bid act rt st with h | h <;> rw [h]

theorem latchBarrierAction_commandLock (fail : FailSet) (bid : Nat)
    (act : BarrierAction) (rt : BoardRuntime) (st : ActionState)
    (h : rt.commandLock = false) :
    (latchBarrierAction fail bid act rt st).rt.commandLock = false := by
  rcases latchBarrierAction_rt fail bid act rt st with h2 | h2 <;> rw [h2]
  exact h


/-! ## Claim theorems -/

/-- Claim C1 (corrected), counterexample: with boards board1 and board2
reachable and the write to board1 channel 0 failing, `emergencyOff` stops
after that single failed write attempt — channels 1..5 of board1 and all of
board2 are never written, the pending close timer survives, and no audit
event is emitted.  This refutes the claim that the sweep continues past
individual write failures and always cancels timers and emits one audit
event. -/
theorem claim_C1_counterexample :
    emergencyOff [("board1", 0)] ["board1", "board2"] [⟨1, "board1", 1⟩] =
      ⟨[⟨"board1", 0, false, false⟩], [⟨1, "board1", 1⟩], 0, true⟩ := by
  decide

/-- Claim C1 (corrected, amended): when no write fails, `emergencyOff`
writes every channel (0..channelCount-1) of every REACHABLE configured
board to false in registry order (unreachable boards are skipped), cancels
every pending auto-release timer regardless of board, and emits exactly one
audit event; a failing write, however, aborts the sweep (see the
counterexample). -/
theorem claim_C1 (reach : List String) (timers : List TimerEv) :
    emergencyOff [] reach timers = ⟨fullSweepWrites reach BOARDS, [], 1, false⟩ := by
  simp [emergencyOff, emergencyOffBoards_noFail]

/-- Claim C2 (corrected), counterexample: two concurrent actuations on
board1 (barrier 1 lift, tag 0, and barrier 2 lift, tag 1) interleave their
coil writes under a fair schedule — the write-tag sequence is [0, 1, 0, 1],
not the serial [0, 0, 1, 1] that queuing in arrival order would force.
`commandLock` is a plain boolean that `latchBarrierAction` never checks, so
it provides no mutual exclusion between actuations. -/
theorem claim_C2_counterexample :
    writeTags (runSched [0, 1, 0, 1, 0, 1, 0, 1]
      [liftThread 0 0 1, liftThread 1 3 4] ⟨false, []⟩).trace = [0, 1, 0, 1] ∧
    ([0, 1, 0, 1] : List Nat) ≠ [0, 0, 1, 1] := by
  decide

/-- Claim C2 (corrected, amended): the per-board `commandLock` flag is set
for the duration of a write sequence and cleared on every exit path
including failure, and a heartbeat that starts while it is held skips its
read entirely; but concurrent actuations for the same board do NOT queue —
the flag is never checked by `latchBarrierAction`, so their writes may
interleave (see the counterexample). -/
theorem claim_C2 (fail : FailSet) (bid : Nat) (act : BarrierAction)
    (rt : BoardRuntime) (st : ActionState) (hlock : rt.commandLock = false) :
    (runSched [0, 1, 1, 0, 0, 0] [liftThread 0 0 1, heartbeatThread]
      ⟨false, []⟩).trace = [.writeC 0 1 false, .writeC 0 0 true] ∧
    (latchBarrierAction fail bid act rt st).rt.commandLock = false :=
  ⟨by decide, latchBarrierAction_commandLock fail bid act rt st hlock⟩

/-- Witness for claim C2 at a concrete input. -/
theorem claim_C2_witness :
    (⟨true, true, false, false⟩ : BoardRuntime).commandLock = false ∧
    ((runSched [0, 1, 1, 0, 0, 0] [liftThread 0 0 1, heartbeatThread]
        ⟨false, []⟩).trace = [.writeC 0 1 false, .writeC 0 0 true] ∧
      (latchBarrierAction [] 1 .lift ⟨true, true, false, false⟩
        ⟨[], [], []⟩).rt.commandLock = false) :=
  ⟨by decide, claim_C2 [] 1 .lift ⟨true, true, false, false⟩ ⟨[], [], []⟩ (by decide)⟩

/-- Claim C3 (corrected), counterexample: a locked barrier does NOT reject
`latch-open` — the index.ts latch routes have no lock check, so the route
clears all three coils and latches lift on (HTTP 200, four coil writes)
even though the barrier is locked.  This refutes the claim that latch-open
and latch-close are rejected with a locked failure. -/
theorem claim_C3_counterexample :
    tsHandle ⟨"krs-entry", 1, 0, 1, 2⟩ true .latchOpen =
      ⟨200, [(0, false), (1, false), (2, false), (0, true)], true⟩ := by
  decide

/-- Claim C3 (corrected, amended): for a locked barrier, `lift` and `close`
are rejected synchronously with HTTP 423 before any coil write, while
`stop` and `unlatch` proceed; but `latch-open` and `latch-close` are NOT
rejected — they proceed to write coils despite the lock. -/
theorem claim_C3 (b : TsBarrierCfg) :
    tsHandle b true .lift = ⟨423, [], true⟩ ∧
    tsHandle b true .close = ⟨423, [], true⟩ ∧
    tsHandle b true .stop = ⟨200, activateCoilWrites b b.stopCoil, true⟩ ∧
    tsHandle b true .unlatch =
      ⟨200, [(b.liftCoil, false), (b.stopCoil, false), (b.closeCoil, false)], false⟩ ∧
    tsHandle b true .latchOpen = ⟨200, activateCoilWrites b b.liftCoil, true⟩ ∧
    tsHandle b true .latchClose = ⟨200, activateCoilWrites b b.closeCoil, true⟩ :=
  ⟨rfl, rfl, rfl, rfl, rfl, rfl⟩

/-- Claim C4 (confirmed): every barrier has at most one pending
auto-release timer — the empty initial state satisfies the invariant and
both `latchBarrierAction` (which always cancels the barrier's pending timer
before issuing writes) and the timer callback preserve it — and in the
close-then-lift scenario the final coil writes leave lift=true and
close=false, no timer remains pending, and firing the close auto-release
afterwards has no effect (no write, no system event). -/
theorem claim_C4 (fail : FailSet) (bid : Nat) (act : BarrierAction)
    (rt : BoardRuntime) (st : ActionState) (hinv : timerInv st) :
    timerInv ⟨[], [], []⟩ ∧
    timerInv (latchBarrierAction fail bid act rt st).st ∧
    timerInv (fireCloseTimer fail bid st) ∧
    (let s1 := latchBarrierAction [] 1 .close ⟨true, true, false, false⟩ ⟨[], [], []⟩
     let s2 := latchBarrierAction [] 1 .lift s1.rt s1.st
     lastWrite s2.st.writes "board1" 0 = some true ∧
     lastWrite s2.st.writes "board1" 1 = some false ∧
     s2.st.timers = [] ∧
     fireCloseTimer [] 1 s2.st = s2.st) :=
  ⟨fun bid2 => by simp,
   timerInv_latchBarrierAction fail bid act rt st hinv,
   timerInv_fireCloseTimer fail bid st hinv,
   by decide⟩

/-- Witness for claim C4 at a concrete input. -/
theorem claim_C4_witness :
    timerInv ⟨[⟨2, "board1", 4⟩], [], []⟩ ∧
    (timerInv ⟨[], [], []⟩ ∧
      timerInv (latchBarrierAction [] 1 .close ⟨true, true, false, false⟩
        ⟨[⟨2, "board1", 4⟩], [], []⟩).st ∧
      timerInv (fireCloseTimer [] 1 ⟨[⟨2, "board1", 4⟩], [], []⟩) ∧
      (let s1 := latchBarrierAction [] 1 .close ⟨true, true, false, false⟩ ⟨[], [], []⟩
       let s2 := latchBarrierAction [] 1 .lift s1.rt s1.st
       lastWrite s2.st.writes "board1" 0 = some true ∧
       lastWrite s2.st.writes "board1" 1 = some false ∧
       s2.st.timers = [] ∧
       fireCloseTimer [] 1 s2.st = s2.st)) := by
  have hinv : timerInv ⟨[⟨2, "board1", 4⟩], [], []⟩ := by
    intro bid
    by_cases h : 2 = bid
    · simp [List.filter, h]
    · have h2 : (2 == bid) = false := by simpa using h
      simp [List.filter, h2]
  exact ⟨hinv, claim_C4 [] 1 .close ⟨true, true, false, false⟩ _ hinv⟩


/-- Claim C5 (corrected), counterexample: the round trip fails for the
empty byte sequence — `appendCRC []` is only two bytes long and `verifyCRC`
rejects every buffer shorter than four bytes, so
`verifyCRC(appendCRC([]))` is false, refuting the claim for EVERY byte
sequence. -/
theorem claim_C5_counterexample : verifyCRC (appendCRC []) = false := by
  decide

/-- Claim C5 (corrected, amended): for every byte sequence of length at
least two, `verifyCRC(appendCRC(bytes))` is true, and flipping any single
bit of `appendCRC(bytes)` (byte i, bit j) makes `verifyCRC` false; the CRC
is the Modbus CRC-16 (polynomial 0xA001, initial value 0xFFFF, LSB-first)
appended little-endian.  For sequences shorter than two bytes the appended
buffer is below `verifyCRC`'s four-byte minimum and the round trip fails
(see the counterexample). -/
theorem claim_C5 (bytes : List Nat) (hlen : 2 ≤ bytes.length)
    (hbytes : ∀ b ∈ bytes, b < 256) (i j : Nat) (hi : i < bytes.length + 2)
    (hj : j < 8) :
    verifyCRC (appendCRC bytes) = true ∧
    verifyCRC (flipAt (appendCRC bytes) i (1 <<< j)) = false :=
  ⟨verifyCRC_appendCRC bytes hlen
      (fun b hb => lt_trans (hbytes b hb) (by norm_num)),
   verifyCRC_flipAt_appendCRC bytes hlen hbytes i j hi hj⟩

set_option maxRecDepth 100000 in
/-- Witness for claim C5 at a concrete input. -/
theorem claim_C5_witness :
    (2 ≤ ([1, 2] : List Nat).length ∧ (∀ b ∈ ([1, 2] : List Nat), b < 256) ∧
      0 < ([1, 2] : List Nat).length + 2 ∧ (0 : Nat) < 8) ∧
    (verifyCRC (appendCRC [1, 2]) = true ∧
      verifyCRC (flipAt (appendCRC [1, 2]) 0 (1 <<< 0)) = false) :=
  ⟨by decide, claim_C5 [1, 2] (by decide) (by decide) 0 0 (by decide) (by decide)⟩

/-- Claim C6 (confirmed): for a valid RTU response frame of Read Coils or
Write Single Coil shape with correct CRC, `parseRTUResponse` applied to any
strict prefix signals Incomplete (never a success and never a CRC failure),
and applied to the complete frame returns the function code and data. -/
theorem claim_C6 (u fc : Nat) (data : List Nat) (hu : u < 256)
    (hshape : ReadCoilsShape fc data ∨ WriteCoilShape fc data)
    (hd : ∀ b ∈ data, b < 256)
    (k : Nat) (hk : k < (buildRTUFrame u fc data).length) :
    parseRTUResponse ((buildRTUFrame u fc data).take k) = .incomplete ∧
    parseRTUResponse (buildRTUFrame u fc data) = .ok (fc :: data) :=
  ⟨parseRTUResponse_prefixIncomplete u fc data hshape k hk,
   parseRTUResponse_complete u fc data hu hshape hd⟩

set_option maxRecDepth 100000 in
/-- Witness for claim C6 at a concrete input (a two-data-byte Read Coils
response, prefix length 4). -/
theorem claim_C6_witness :
    ((1 : Nat) < 256 ∧
      (ReadCoilsShape 1 [2, 171, 205] ∨ WriteCoilShape 1 [2, 171, 205]) ∧
      (∀ b ∈ ([2, 171, 205] : List Nat), b < 256) ∧
      4 < (buildRTUFrame 1 1 [2, 171, 205]).length) ∧
    (parseRTUResponse ((buildRTUFrame 1 1 [2, 171, 205]).take 4) = .incomplete ∧
      parseRTUResponse (buildRTUFrame 1 1 [2, 171, 205]) = .ok [1, 2, 171, 205]) :=
  ⟨by decide,
   claim_C6 1 1 [2, 171, 205] (by decide) (by decide) (by decide) 4 (by decide)⟩

/-- Claim C7 (confirmed): for every Read Coils and Write Single Coil
response shape (function code plus well-formed payload, including payloads
of one or two data bytes), both framing round trips recover exactly the
original function code followed by the original payload:
`parseTCPResponse(buildTCPFrame(tid, unit, fc, payload))` and
`parseRTUResponse(buildRTUFrame(unit, fc, payload))` return `fc :: payload`. -/
theorem claim_C7 (tid u fc : Nat) (data : List Nat) (hu : u < 256)
    (hshape : ReadCoilsShape fc data ∨ WriteCoilShape fc data)
    (hd : ∀ b ∈ data, b < 256) :
    parseTCPResponse (buildTCPFrame tid u fc data) = .ok (fc :: data) ∧
    parseRTUResponse (buildRTUFrame u fc data) = .ok (fc :: data) := by
  constructor
  · refine parseTCPResponse_complete tid u fc data ?_ ?_
    · rcases hshape with ⟨h, _⟩ | ⟨h, _⟩ <;> subst h <;> decide
    · rcases hshape with ⟨h, hl⟩ | ⟨h, hl⟩ <;> omega
  · exact parseRTUResponse_complete u fc data hu hshape hd

set_option maxRecDepth 100000 in
/-- Witness for claim C7 at a concrete input (quantity-9-style Read Coils
response: byte count 2, two data bytes). -/
theorem claim_C7_witness :
    ((1 : Nat) < 256 ∧
      (ReadCoilsShape 1 [2, 171, 205] ∨ WriteCoilShape 1 [2, 171, 205]) ∧
      (∀ b ∈ ([2, 171, 205] : List Nat), b < 256)) ∧
    (parseTCPResponse (buildTCPFrame 777 1 1 [2, 171, 205]) = .ok [1, 2, 171, 205] ∧
      parseRTUResponse (buildRTUFrame 1 1 [2, 171, 205]) = .ok [1, 2, 171, 205]) :=
  ⟨by decide, claim_C7 777 1 1 [2, 171, 205] (by decide) (by decide) (by decide)⟩

/-- Claim C8 (confirmed): `autoDetectBoard` first issues a real
ReadCoils(start=0, quantity=channelCount) framed as Modbus/TCP and reports
the tcp dialect when it succeeds (no RTU probe is issued); only when the
TCP probe fails does it retry the same logical read framed as RTU,
reporting rtu on success; when both probes fail it reports failure, the
board stays undetected (`modeDetected = false`), and the next heartbeat
re-probes from scratch (the heartbeat reissues both probes). -/
theorem claim_C8 (channels : Nat) (pRTU : Bool) (rt : BoardRuntime)
    (coils : List Bool) (hlock : rt.commandLock = false)
    (hdet : rt.modeDetected = false) :
    (autoDetectBoard channels true pRTU rt =
      ({rt with useRTU := false}, true, [⟨false, 1, probeData channels⟩])) ∧
    (autoDetectBoard channels false true rt =
      ({rt with useRTU := true}, true,
        [⟨false, 1, probeData channels⟩, ⟨true, 1, probeData channels⟩])) ∧
    (autoDetectBoard channels false false rt =
      ({rt with useRTU := true}, false,
        [⟨false, 1, probeData channels⟩, ⟨true, 1, probeData channels⟩])) ∧
    (heartbeatBoard channels false false none rt coils =
      ({rt with useRTU := true, modeDetected := false}, coils,
        [⟨false, 1, probeData channels⟩, ⟨true, 1, probeData channels⟩])) := by
  refine ⟨?_, ?_, ?_, ?_⟩
  · simp [autoDetectBoard]
  · simp [autoDetectBoard]
  · simp [autoDetectBoard]
  · simp [heartbeatBoard, autoDetectBoard, hlock, hdet]

/-- Witness for claim C8 at a concrete input. -/
theorem claim_C8_witness :
    ((⟨false, false, false, false⟩ : BoardRuntime).commandLock = false ∧
      (⟨false, false, false, false⟩ : BoardRuntime).modeDetected = false) ∧
    ((autoDetectBoard 6 true true ⟨false, false, false, false⟩ =
        ({(⟨false, false, false, false⟩ : BoardRuntime) with useRTU := false}, true,
          [⟨false, 1, probeData 6⟩])) ∧
      (autoDetectBoard 6 false true ⟨false, false, false, false⟩ =
        ({(⟨false, false, false, false⟩ : BoardRuntime) with useRTU := true}, true,
          [⟨false, 1, probeData 6⟩, ⟨true, 1, probeData 6⟩])) ∧
      (autoDetectBoard 6 false false ⟨false, false, false, false⟩ =
        ({(⟨false, false, false, false⟩ : BoardRuntime) with useRTU := true}, false,
          [⟨false, 1, probeData 6⟩, ⟨true, 1, probeData 6⟩])) ∧
      (heartbeatBoard 6 false false none ⟨false, false, false, false⟩ [] =
        ({(⟨false, false, false, false⟩ : BoardRuntime) with
            useRTU := true, modeDetected := false}, [],
          [⟨false, 1, probeData 6⟩, ⟨true, 1, probeData 6⟩]))) :=
  ⟨by decide, claim_C8 6 true ⟨false, false, false, false⟩ [] (by decide) (by decide)⟩

/-- Claim C9 (corrected), counterexample: a failed coil-write exchange
during `latchBarrierAction` (the write to board1 coil 1 raises) surfaces as
an error but leaves the cached dialect valid (`modeDetected` stays true) —
only a heartbeat-read failure invalidates it, refuting the claim that EVERY
failed exchange resets the dialect. -/
theorem claim_C9_counterexample :
    (latchBarrierAction [("board1", 1)] 1 .lift ⟨true, true, true, false⟩
      ⟨[], [], []⟩).error.isSome = true ∧
    (latchBarrierAction [("board1", 1)] 1 .lift ⟨true, true, true, false⟩
      ⟨[], [], []⟩).rt.modeDetected = true := by
  decide

/-- Claim C9 (corrected, amended): the cached dialect is invalidated
(`modeDetected := false`, forcing re-negotiation) only when the HEARTBEAT
read fails; a failed write exchange during an actuation leaves the cached
dialect untouched (see the counterexample). -/
theorem claim_C9 (channels : Nat) (pTCP pRTU : Bool) (rt : BoardRuntime)
    (coils : List Bool) (fail : FailSet) (bid : Nat) (act : BarrierAction)
    (st : ActionState) (hlock : rt.commandLock = false)
    (hdet : rt.modeDetected = true) :
    (heartbeatBoard channels pTCP pRTU none rt coils).1.modeDetected = false ∧
    (latchBarrierAction fail bid act rt st).rt.modeDetected = rt.modeDetected :=
  ⟨by simp [heartbeatBoard, hlock, hdet],
   latchBarrierAction_modeDetected fail bid act rt st⟩

/-- Witness for claim C9 at a concrete input. -/
theorem claim_C9_witness :
    ((⟨true, true, false, false⟩ : BoardRuntime).commandLock = false ∧
      (⟨true, true, false, false⟩ : BoardRuntime).modeDetected = true) ∧
    ((heartbeatBoard 6 true true none ⟨true, true, false, false⟩ []).1.modeDetected
        = false ∧
      (latchBarrierAction [("board1", 0)] 1 .lift ⟨true, true, false, false⟩
        ⟨[], [], []⟩).rt.modeDetected =
        (⟨true, true, false, false⟩ : BoardRuntime).modeDetected) :=
  ⟨by decide, claim_C9 6 true true ⟨true, true, false, false⟩ [] [("board1", 0)]
    1 .lift ⟨[], [], []⟩ (by decide) (by decide)⟩

/-- Claim C10 (confirmed): a successful `readCoils(board, start, qty)`
unpacks exactly `qty` booleans from the response PDU regardless of how many
data bytes the PDU actually contains; a coil whose backing byte is absent
from the PDU reads as false (JavaScript `undefined & mask` coerces to 0)
rather than raising. -/
theorem claim_C10 (pdu : List Nat) (qty i : Nat) (hi : i < qty)
    (habs : pdu.length ≤ 2 + i / 8) :
    (unpackCoils pdu qty).length = qty ∧
    (unpackCoils pdu qty).getD i true = false := by
  constructor
  · simp [unpackCoils]
  · unfold unpackCoils
    have hlen : ((List.range qty).map
        (fun i => (pdu.getD (2 + i / 8) 0 &&& (1 <<< (i % 8))) != 0)).length = qty := by
      simp
    rw [List.getD_eq_getElem _ _ (by omega)]
    rw [List.getElem_map]
    have hnone : pdu[2 + i / 8]? = none := List.getElem?_eq_none (by simpa using habs)
    simp [List.getElem_range, List.getD, hnone]

/-- Witness for claim C10 at a concrete input: a Read Coils PDU with a
single data byte, unpacked with quantity 9 — coil 8 has no backing byte and
reads false. -/
theorem claim_C10_witness :
    ((8 : Nat) < 9 ∧ ([1, 1, 5] : List Nat).length ≤ 2 + 8 / 8) ∧
    ((unpackCoils [1, 1, 5] 9).length = 9 ∧
      (unpackCoils [1, 1, 5] 9).getD 8 true = false) :=
  ⟨by decide, claim_C10 [1, 1, 5] 9 8 (by decide) (by decide)⟩

end BarrierControl
